import Mathlib

/-!
# Verification of the DexScreener boost monitor (src/bot.py)

Shallow embedding of the bot's pure logic: the monetary formatter
`format_number`, the social-links formatter `format_social_links`, the
notification message builder of `send_notification`, the token-info
extraction `get_token_info`, the boost poller `get_latest_boosts`, and the
deduplicating monitor loop of `monitor_boosts`.  Machine floats of the
Python source are modelled as exact rationals; the fixed-point rendering
`f"{x:.2f}"` is modelled by `formatFixed` with round-half-even.  Network
effects appear as explicit `Except` inputs, and the possible outcomes of
`send_notification` for one event (success, a delivery error caught at
bot.py lines 186-187, or an uncaught exception such as `float()` raising
on a malformed `priceUsd`) appear as a `SendOutcome` oracle.
-/

namespace DexBot

/-- One decimal digit as a character (used by the decimal renderer). -/
def digitChar (d : Nat) : Char :=
  if d = 0 then '0' else if d = 1 then '1' else if d = 2 then '2'
  else if d = 3 then '3' else if d = 4 then '4' else if d = 5 then '5'
  else if d = 6 then '6' else if d = 7 then '7' else if d = 8 then '8' else '9'

/-- Decimal digits of a natural number, most significant first; the first
argument is fuel (any value above the digit count of `n` is enough). -/
def natDigits : Nat → Nat → List Char
  | 0, _ => []
  | fuel + 1, n =>
    if n < 10 then [digitChar n] else natDigits fuel (n / 10) ++ [digitChar (n % 10)]

/-- Decimal rendering of a natural number. -/
def natToStr (n : Nat) : String :=
  ⟨natDigits (n + 1) n⟩

/-- Decimal rendering of `m` left-padded with zeros to width `w`. -/
def padDigits (w : Nat) (m : Nat) : String :=
  ⟨List.replicate (w - (natToStr m).length) '0'⟩ ++ natToStr m

/-- Floor of a rational number (den is positive, so `Int.fdiv` floors). -/
def ratFloor (q : ℚ) : ℤ :=
  q.num.fdiv q.den

/-- Round to the nearest integer, ties to even: the rounding used by
Python's fixed-point float formatting, modelled on exact rationals. -/
def roundHalfEven (x : ℚ) : ℤ :=
  let f := ratFloor x
  let r := x - (f : ℚ)
  if r < 1/2 then f
  else if 1/2 < r then f + 1
  else if f % 2 = 0 then f else f + 1

/-- Model of Python `f"{x:.nf}"` fixed-point rendering on exact rationals. -/
def formatFixed (places : Nat) (q : ℚ) : String :=
  let scaled := roundHalfEven (q * ((10 : ℚ) ^ places))
  let a := scaled.natAbs
  (if scaled < 0 then "-" else "")
    ++ natToStr (a / 10 ^ places) ++ "." ++ padDigits places (a % 10 ^ places)

/-- bot.py lines 124-132: `format_number`. -/
def format_number (num : ℚ) : String :=
  if 1000000000 ≤ num then "$" ++ formatFixed 2 (num / 1000000000) ++ "B"
  else if 1000000 ≤ num then "$" ++ formatFixed 2 (num / 1000000) ++ "M"
  else if 1000 ≤ num then "$" ++ formatFixed 2 (num / 1000) ++ "K"
  else "$" ++ formatFixed 2 num

/-- A boost event from the feed endpoint (bot.py lines 212-217 read
`chainId`, `tokenAddress`, and `send_notification` reads `amount`,
`totalAmount`, `description`, `url`). -/
structure Boost where
  chainId : String
  tokenAddress : String
  amount : ℚ
  totalAmount : ℚ
  description : Option String := none
  url : Option String := none
deriving DecidableEq

/-- bot.py line 213: the deduplication key of a boost. -/
def boostId (b : Boost) : String :=
  b.chainId ++ "_" ++ b.tokenAddress

/-- A website entry of `info.websites`; `url` is `none` when the key is
missing from the upstream JSON object. -/
structure Website where
  url : Option String := none
deriving DecidableEq

/-- A social entry of `info.socials`; bot.py reads both fields with
`.get(_, '')`, so a missing key is the empty string. -/
structure Social where
  platform : String := ""
  handle : String := ""
deriving DecidableEq

/-- The `info` object of a pair, restricted to the keys bot.py reads;
`none` models a missing key. -/
structure Info where
  websites : Option (List Website) := none
  socials : Option (List Social) := none
deriving DecidableEq

/-- Python truthiness of the `info` dict restricted to its modelled keys. -/
def Info.truthy (i : Info) : Bool :=
  i.websites.isSome || i.socials.isSome

/-- Python `str.lower` (per character). -/
def pyLower (s : String) : String :=
  s.map Char.toLower

/-- Python `str.title` on a character list: the first letter of every
alphabetic run is upper-cased, the rest lower-cased. -/
def pyTitleGo : Bool → List Char → List Char
  | _, [] => []
  | prev, c :: cs =>
    (if c.isAlpha then (if prev then c.toLower else c.toUpper) else c)
      :: pyTitleGo c.isAlpha cs

/-- Python `str.title`. -/
def pyTitle (s : String) : String :=
  ⟨pyTitleGo false s.data⟩

/-- bot.py lines 99-110: the platform icon table with its `'🔗'` default. -/
def platformIcon (platform : String) : String :=
  if platform = "twitter" then "🐦"
  else if platform = "telegram" then "📱"
  else if platform = "discord" then "💬"
  else if platform = "medium" then "📝"
  else if platform = "github" then "💻"
  else "🔗"

/-- bot.py lines 93-95: the line rendered for one website entry (skipped
when the `url` field is missing or empty, i.e. falsy). -/
def websiteLine (w : Website) : Option String :=
  match w.url with
  | some u => if u = "" then none else some ("🌐 [Website](" ++ u ++ ")")
  | none => none

/-- bot.py lines 107-120: the line rendered for one social entry. -/
def socialLine (s : Social) : Option String :=
  let platform := pyLower s.platform
  let handle := s.handle
  let icon := platformIcon platform
  if platform = "" then none
  else if handle = "" then none
  else if platform = "twitter" then
    some (icon ++ " [Twitter](https://twitter.com/" ++ handle ++ ")")
  else if platform = "telegram" then
    some (icon ++ " [Telegram](https://t.me/" ++ handle ++ ")")
  else if platform = "discord" then
    some (icon ++ " [Discord](" ++ handle ++ ")")
  else
    some (icon ++ " [" ++ pyTitle platform ++ "](" ++ handle ++ ")")

/-- bot.py lines 87-122: `format_social_links`. -/
def format_social_links (info : Info) : String :=
  let webLinks :=
    match info.websites with
    | some ws => if ws = [] then [] else ws.filterMap websiteLine
    | none => []
  let socialLinks :=
    match info.socials with
    | some ss => if ss = [] then [] else ss.filterMap socialLine
    | none => []
  let links := webLinks ++ socialLinks
  if links = [] then "No social links available" else String.intercalate "\n" links

/-- The token information dictionary built by `get_token_info`
(bot.py lines 73-81). -/
structure TokenInfo where
  name : String
  symbol : String
  market_cap : ℚ
  fdv : ℚ
  price_usd : String
  liquidity_usd : ℚ
  info : Info
deriving DecidableEq

/-- `baseToken` of a pair (bot.py reads `name` and `symbol` directly). -/
structure BaseToken where
  name : String
  symbol : String
deriving DecidableEq

/-- `liquidity` of a pair; `usd` is `none` when the key is missing. -/
structure Liquidity where
  usd : Option ℚ := none
deriving DecidableEq

/-- One entry of the `pairs` array of the metrics endpoint. -/
structure Pair where
  baseToken : BaseToken
  marketCap : Option ℚ := none
  fdv : Option ℚ := none
  priceUsd : Option String := none
  liquidity : Option Liquidity := none
  info : Option Info := none
deriving DecidableEq

/-- The JSON body of the metrics endpoint: an object with an optional
`pairs` array. -/
structure PairsResponse where
  pairs : Option (List Pair) := none
deriving DecidableEq

/-- The failure modes of an HTTP fetch that bot.py catches: transport
errors, timeouts, non-2xx statuses (`raise_for_status`), and bodies that
fail to parse as JSON. -/
inductive FetchErr where
  | transport
  | timeout
  | non2xx
  | malformedBody
deriving DecidableEq

/-- bot.py lines 59-85: `get_token_info`.  The input is the outcome of the
GET: `.error` for any raised exception (caught at lines 83-85), `.ok` for
a parsed body. -/
def get_token_info : Except FetchErr PairsResponse → Option TokenInfo
  | .error _ => none
  | .ok data =>
    match data.pairs with
    | some (pair :: _) =>
      some { name := pair.baseToken.name
             symbol := pair.baseToken.symbol
             market_cap := pair.marketCap.getD 0
             fdv := pair.fdv.getD 0
             price_usd := pair.priceUsd.getD "0"
             liquidity_usd :=
               match pair.liquidity with
               | some l => l.usd.getD 0
               | none => 0
             info := pair.info.getD {} }
    | _ => none

/-- Numeric value of a list of decimal digit characters. -/
def digitsVal (l : List Char) : ℚ :=
  l.foldl (fun acc c => acc * 10 + ((c.toNat - 48 : ℕ) : ℚ)) 0

/-- Model of Python `float(s)` on plain decimal strings: `none` models a
raised `ValueError` (scientific notation and special values are outside
the modelled input space). -/
def pyFloatCore (l : List Char) : Option ℚ :=
  let intPart := l.takeWhile Char.isDigit
  let rest := l.dropWhile Char.isDigit
  match rest with
  | [] => if intPart = [] then none else some (digitsVal intPart)
  | '.' :: frac =>
    if frac.all Char.isDigit ∧ (intPart ≠ [] ∨ frac ≠ []) then
      some (digitsVal intPart + digitsVal frac / ((10 : ℚ) ^ frac.length))
    else none
  | _ => none

/-- Model of Python `float(s)`, with an optional leading minus sign. -/
def pyFloat (s : String) : Option ℚ :=
  match s.data with
  | '-' :: rest => (pyFloatCore rest).map (fun q => -q)
  | l => pyFloatCore l

/-- Python truthiness of an optional string field read with `.get`. -/
def pyTruthy : Option String → Bool
  | none => false
  | some s => if s = "" then false else true

/-- bot.py lines 134-176: the message text assembled by
`send_notification` before the Telegram send.  `none` models the uncaught
`ValueError` from `float(token_info['price_usd'])` at line 148; every
other input yields a message. -/
def send_notification_message (boost : Boost) (token_info : Option TokenInfo) :
    Option String :=
  match token_info with
  | some ti =>
    match pyFloat ti.price_usd with
    | none => none
    | some priceQ => some (
        "🔥 *NEW TOKEN BOOST DETECTED* 🔥\n\n"
        ++ "*Token:* " ++ ti.name ++ " (" ++ ti.symbol ++ ")\n"
        ++ "*Chain:* " ++ boost.chainId ++ "\n"
        ++ "*Address:* `" ++ boost.tokenAddress ++ "`\n\n"
        ++ "*💰 Token Metrics:*\n"
        ++ "• Market Cap: " ++ format_number ti.market_cap ++ "\n"
        ++ "• FDV: " ++ format_number ti.fdv ++ "\n"
        ++ "• Price: $" ++ formatFixed 8 priceQ ++ "\n"
        ++ "• Liquidity: " ++ format_number ti.liquidity_usd ++ "\n\n"
        ++ "*🚀 Boost Details:*\n"
        ++ "• Boost Amount: " ++ format_number boost.amount ++ "\n"
        ++ "• Total Amount: " ++ format_number boost.totalAmount ++ "\n"
        ++ (if pyTruthy boost.description then
              "\n*📝 Description:*\n" ++ boost.description.getD "" ++ "\n"
            else "")
        ++ "\n*🔗 Important Links:*\n"
        ++ (if pyTruthy boost.url then
              "• [DexScreener](" ++ boost.url.getD "" ++ ")\n"
            else "")
        ++ (if ti.info.truthy then
              "\n*Social Links:*\n" ++ format_social_links ti.info
            else ""))
  | none => some (
      "🔥 *NEW TOKEN BOOST DETECTED* 🔥\n\n"
      ++ "*Chain:* " ++ boost.chainId ++ "\n"
      ++ "*Token Address:* `" ++ boost.tokenAddress ++ "`\n"
      ++ "*Boost Amount:* " ++ format_number boost.amount ++ "\n"
      ++ "*Total Amount:* " ++ format_number boost.totalAmount ++ "\n")

/-- Modelled from the spec: the "reduced message" rendered when metrics
are absent, "containing only chain id, address, boost amount, total
amount" (spec section 4.3), written out as the concrete fallback template. -/
def specReducedMessage (boost : Boost) : String :=
  "🔥 *NEW TOKEN BOOST DETECTED* 🔥\n\n"
  ++ "*Chain:* " ++ boost.chainId ++ "\n"
  ++ "*Token Address:* `" ++ boost.tokenAddress ++ "`\n"
  ++ "*Boost Amount:* " ++ format_number boost.amount ++ "\n"
  ++ "*Total Amount:* " ++ format_number boost.totalAmount ++ "\n"

/-- The parsed JSON body of the boost feed: either a single object or an
array of objects (bot.py lines 209-210 distinguish exactly these). -/
inductive PollBody where
  | one (b : Boost)
  | many (l : List Boost)
deriving DecidableEq

/-- bot.py lines 189-201: `get_latest_boosts` returns the parsed body, or
the empty list when any exception was raised (lines 199-201). -/
def get_latest_boosts : Except FetchErr PollBody → PollBody
  | .ok body => body
  | .error _ => .many []

/-- bot.py lines 209-210: a non-list body is wrapped in a one-element
list. -/
def normalizeBoosts : PollBody → List Boost
  | .many l => l
  | .one b => [b]

/-- The possible outcomes of `send_notification` for one boost:
`ok` (message delivered), `deliveryFailed` (the Telegram send raised and
was caught at bot.py lines 186-187), `raised` (an uncaught exception
while building the message, e.g. `float()` on a malformed `priceUsd` or a
missing dictionary key, which propagates into the monitoring loop). -/
inductive SendOutcome where
  | ok
  | deliveryFailed
  | raised
deriving DecidableEq

/-- The result of running the per-event loop of one cycle: the seen-set
after the loop, the boosts whose notification was attempted (in order),
and whether an uncaught exception aborted the loop. -/
structure CycleOut where
  seen : Finset String
  notified : List Boost
  raised : Bool
deriving DecidableEq

/-- bot.py lines 212-217: the per-event loop of `monitor_boosts`.  A seen
key is skipped; an unseen key is inserted into the seen set first, and
then the notification is attempted.  An uncaught exception stops the loop
for this cycle (the insertion is not rolled back); a caught delivery
error does not. -/
def process_boosts (outcome : Boost → SendOutcome) :
    List Boost → Finset String → CycleOut
  | [], seen => ⟨seen, [], false⟩
  | b :: rest, seen =>
    if boostId b ∈ seen then process_boosts outcome rest seen
    else
      match outcome b with
      | .raised => ⟨insert (boostId b) seen, [], true⟩
      | _ =>
        let r := process_boosts outcome rest (insert (boostId b) seen)
        ⟨r.seen, b :: r.notified, r.raised⟩

/-- The loop state of `DexScreenerBot`: `known_boosts` and
`last_check_time` (time is modelled as a natural number). -/
structure MonitorState where
  known_boosts : Finset String
  last_check_time : ℕ
deriving DecidableEq

/-- bot.py lines 205-224: one cycle of `monitor_boosts`.  The fetch result
is normalised, each event is processed, and `last_check_time` is set to
`now` (line 219) unless an uncaught exception aborted the cycle, in which
case the `except` at lines 221-222 catches it and the loop sleeps and
continues. -/
def monitor_cycle (outcome : Boost → SendOutcome) (fetch : Except FetchErr PollBody)
    (now : ℕ) (st : MonitorState) : MonitorState × List Boost :=
  let r := process_boosts outcome (normalizeBoosts (get_latest_boosts fetch)) st.known_boosts
  (⟨r.seen, if r.raised then st.last_check_time else now⟩, r.notified)

/-! ## Basic lemmas about the per-event loop -/

lemma process_boosts_nil (oc : Boost → SendOutcome) (seen : Finset String) :
    process_boosts oc [] seen = ⟨seen, [], false⟩ :=
  rfl

lemma process_boosts_cons_seen (oc : Boost → SendOutcome) (b : Boost) (rest : List Boost)
    (seen : Finset String) (h : boostId b ∈ seen) :
    process_boosts oc (b :: rest) seen = process_boosts oc rest seen := by
  simp [process_boosts, h]

lemma process_boosts_cons_raised (oc : Boost → SendOutcome) (b : Boost) (rest : List Boost)
    (seen : Finset String) (h : boostId b ∉ seen) (hr : oc b = .raised) :
    process_boosts oc (b :: rest) seen = ⟨insert (boostId b) seen, [], true⟩ := by
  simp [process_boosts, h, hr]

lemma process_boosts_cons_send (oc : Boost → SendOutcome) (b : Boost) (rest : List Boost)
    (seen : Finset String) (h : boostId b ∉ seen) (hr : oc b ≠ .raised) :
    process_boosts oc (b :: rest) seen =
      ⟨(process_boosts oc rest (insert (boostId b) seen)).seen,
       b :: (process_boosts oc rest (insert (boostId b) seen)).notified,
       (process_boosts oc rest (insert (boostId b) seen)).raised⟩ := by
  cases hoc : oc b with
  | raised => exact absurd hoc hr
  | ok => simp [process_boosts, h, hoc]
  | deliveryFailed => simp [process_boosts, h, hoc]

lemma process_boosts_seen_mono (oc : Boost → SendOutcome) :
    ∀ (bs : List Boost) (seen : Finset String), seen ⊆ (process_boosts oc bs seen).seen := by
  intro bs
  induction bs with
  | nil => intro seen; rw [process_boosts_nil]
  | cons b rest ih =>
    intro seen
    by_cases h : boostId b ∈ seen
    · rw [process_boosts_cons_seen _ _ _ _ h]; exact ih seen
    · by_cases hr : oc b = .raised
      · rw [process_boosts_cons_raised _ _ _ _ h hr]
        exact Finset.subset_insert _ _
      · rw [process_boosts_cons_send _ _ _ _ h hr]
        exact (Finset.subset_insert _ _).trans (ih _)

lemma process_boosts_notified_not_mem (oc : Boost → SendOutcome) :
    ∀ (bs : List Boost) (seen : Finset String) (b : Boost),
      b ∈ (process_boosts oc bs seen).notified → boostId b ∉ seen := by
  intro bs
  induction bs with
  | nil => intro seen b hb; rw [process_boosts_nil] at hb; simp at hb
  | cons c rest ih =>
    intro seen b hb
    by_cases h : boostId c ∈ seen
    · rw [process_boosts_cons_seen _ _ _ _ h] at hb; exact ih seen b hb
    · by_cases hr : oc c = .raised
      · rw [process_boosts_cons_raised _ _ _ _ h hr] at hb; simp at hb
      · rw [process_boosts_cons_send _ _ _ _ h hr] at hb
        rcases List.mem_cons.mp hb with rfl | hb2
        · exact h
        · intro hmem
          exact ih _ b hb2 (Finset.mem_insert_of_mem hmem)

lemma process_boosts_all_seen (oc : Boost → SendOutcome) :
    ∀ (bs : List Boost) (seen : Finset String), (∀ b ∈ bs, oc b ≠ .raised) →
      ∀ b ∈ bs, boostId b ∈ (process_boosts oc bs seen).seen := by
  intro bs
  induction bs with
  | nil => intro seen _ b hb; simp at hb
  | cons c rest ih =>
    intro seen hnr b hb
    by_cases h : boostId c ∈ seen
    · rw [process_boosts_cons_seen _ _ _ _ h]
      rcases List.mem_cons.mp hb with rfl | hb2
      · exact process_boosts_seen_mono oc rest seen h
      · exact ih seen (fun x hx => hnr x (List.mem_cons_of_mem _ hx)) b hb2
    · have hrc : oc c ≠ .raised := hnr c (List.mem_cons_self _ _)
      rw [process_boosts_cons_send _ _ _ _ h hrc]
      rcases List.mem_cons.mp hb with rfl | hb2
      · exact process_boosts_seen_mono oc rest _ (Finset.mem_insert_self _ _)
      · exact ih _ (fun x hx => hnr x (List.mem_cons_of_mem _ hx)) b hb2

lemma process_boosts_skip_all (oc : Boost → SendOutcome) :
    ∀ (bs : List Boost) (seen : Finset String), (∀ b ∈ bs, boostId b ∈ seen) →
      process_boosts oc bs seen = ⟨seen, [], false⟩ := by
  intro bs
  induction bs with
  | nil => intro seen _; rfl
  | cons c rest ih =>
    intro seen hall
    rw [process_boosts_cons_seen _ _ _ _ (hall c (List.mem_cons_self _ _))]
    exact ih seen (fun x hx => hall x (List.mem_cons_of_mem _ hx))

lemma process_boosts_fresh (oc : Boost → SendOutcome) :
    ∀ (bs : List Boost) (seen : Finset String), (∀ b ∈ bs, oc b ≠ .raised) →
      (∀ b ∈ bs, boostId b ∉ seen) →
      bs.Pairwise (fun a b => boostId a ≠ boostId b) →
      (process_boosts oc bs seen).notified = bs := by
  intro bs
  induction bs with
  | nil => intro seen _ _ _; rfl
  | cons c rest ih =>
    intro seen hnr hfresh hpw
    have h : boostId c ∉ seen := hfresh c (List.mem_cons_self _ _)
    have hrc : oc c ≠ .raised := hnr c (List.mem_cons_self _ _)
    rw [process_boosts_cons_send _ _ _ _ h hrc]
    obtain ⟨hhead, htail⟩ := List.pairwise_cons.mp hpw
    have hfresh2 : ∀ b ∈ rest, boostId b ∉ insert (boostId c) seen := by
      intro x hx hmem
      rcases Finset.mem_insert.mp hmem with heq | hmem2
      · exact hhead x hx heq.symm
      · exact hfresh x (List.mem_cons_of_mem _ hx) hmem2
    rw [ih _ (fun x hx => hnr x (List.mem_cons_of_mem _ hx)) hfresh2 htail]

lemma process_boosts_no_raise (oc : Boost → SendOutcome) :
    ∀ (bs : List Boost) (seen : Finset String), (∀ b ∈ bs, oc b ≠ .raised) →
      (process_boosts oc bs seen).raised = false := by
  intro bs
  induction bs with
  | nil => intro seen _; rfl
  | cons c rest ih =>
    intro seen hnr
    by_cases h : boostId c ∈ seen
    · rw [process_boosts_cons_seen _ _ _ _ h]
      exact ih seen (fun x hx => hnr x (List.mem_cons_of_mem _ hx))
    · rw [process_boosts_cons_send _ _ _ _ h (hnr c (List.mem_cons_self _ _))]
      exact ih _ (fun x hx => hnr x (List.mem_cons_of_mem _ hx))

lemma monitor_cycle_eq (oc : Boost → SendOutcome) (fetch : Except FetchErr PollBody)
    (now : ℕ) (st : MonitorState) :
    monitor_cycle oc fetch now st =
      (⟨(process_boosts oc (normalizeBoosts (get_latest_boosts fetch)) st.known_boosts).seen,
        if (process_boosts oc (normalizeBoosts (get_latest_boosts fetch)) st.known_boosts).raised
        then st.last_check_time else now⟩,
       (process_boosts oc (normalizeBoosts (get_latest_boosts fetch)) st.known_boosts).notified) :=
  rfl

/-! ## Claim theorems -/

/-- C1: once a boost's identity key (chainId and tokenAddress) is in the
seen set it is never removed (cycles only grow `known_boosts`), a boost
whose key is already seen is never notified again regardless of its other
fields, and running two consecutive cycles on the same raw poll response
(with no uncaught per-event exception, and pairwise distinct keys) yields
exactly one notification per contained event: the first cycle notifies
each event once, the second notifies nothing. -/
theorem C1_dedup_idempotent :
    (∀ (oc : Boost → SendOutcome) (fetch : Except FetchErr PollBody) (now : ℕ)
       (st : MonitorState), st.known_boosts ⊆ (monitor_cycle oc fetch now st).1.known_boosts)
    ∧ (∀ (oc : Boost → SendOutcome) (bs : List Boost) (seen : Finset String) (b : Boost),
         b ∈ (process_boosts oc bs seen).notified → boostId b ∉ seen)
    ∧ (∀ (oc1 oc2 : Boost → SendOutcome) (body : PollBody) (st : MonitorState)
         (now1 now2 : ℕ),
         (∀ b ∈ normalizeBoosts body, oc1 b ≠ .raised) →
         (normalizeBoosts body).Pairwise (fun a b => boostId a ≠ boostId b) →
         (∀ b ∈ normalizeBoosts body, boostId b ∉ st.known_boosts) →
         (monitor_cycle oc1 (.ok body) now1 st).2 = normalizeBoosts body
         ∧ (monitor_cycle oc2 (.ok body) now2
              (monitor_cycle oc1 (.ok body) now1 st).1).2 = []) := by
  refine ⟨?_, ?_, ?_⟩
  · intro oc fetch now st
    rw [monitor_cycle_eq]
    exact process_boosts_seen_mono oc _ _
  · intro oc bs seen b hb
    exact process_boosts_notified_not_mem oc bs seen b hb
  · intro oc1 oc2 body st now1 now2 hnr hpw hfresh
    constructor
    · rw [monitor_cycle_eq]
      exact process_boosts_fresh oc1 _ _ hnr hfresh hpw
    · rw [monitor_cycle_eq, monitor_cycle_eq]
      have hall : ∀ b ∈ normalizeBoosts (get_latest_boosts (.ok body)),
          boostId b ∈ (process_boosts oc1 (normalizeBoosts (get_latest_boosts (.ok body)))
            st.known_boosts).seen :=
        process_boosts_all_seen oc1 _ _ hnr
      rw [process_boosts_skip_all oc2 _ _ hall]

/-- Concrete boost used by several witnesses (the spec's own scenario
event from section 8). -/
def wBoost : Boost :=
  ⟨"solana", "ABC", 100, 500, none, none⟩

/-- C1 witness: the theorem applied to one concrete cycle input. -/
theorem C1_dedup_idempotent_witness :
    (monitor_cycle (fun _ => .ok) (.ok (.many [wBoost])) 1 ⟨∅, 0⟩).2
      = normalizeBoosts (.many [wBoost])
    ∧ (monitor_cycle (fun _ => .ok) (.ok (.many [wBoost])) 2
         (monitor_cycle (fun _ => .ok) (.ok (.many [wBoost])) 1 ⟨∅, 0⟩).1).2 = [] :=
  C1_dedup_idempotent.2.2 (fun _ => .ok) (fun _ => .ok) (.many [wBoost]) ⟨∅, 0⟩ 1 2
    (by intro b _; simp) (by decide) (by intro b _; exact Finset.not_mem_empty _)

/-- C2 counterexample: a failed poll (here a timeout) leaves the seen set
unchanged and produces no notifications, but the last-check timestamp IS
advanced (from 5 to 10), because `get_latest_boosts` swallows the
exception and returns `[]`, after which the cycle completes normally and
line 219 runs.  This contradicts the claim that the timestamp is not
advanced. -/
theorem C2_counterexample :
    (monitor_cycle (fun _ => .ok) (.error .timeout) 10 ⟨∅, 5⟩).1.known_boosts = ∅
    ∧ (monitor_cycle (fun _ => .ok) (.error .timeout) 10 ⟨∅, 5⟩).2 = []
    ∧ (monitor_cycle (fun _ => .ok) (.error .timeout) 10 ⟨∅, 5⟩).1.last_check_time = 10
    ∧ (monitor_cycle (fun _ => .ok) (.error .timeout) 10 ⟨∅, 5⟩).1.last_check_time ≠ 5 := by
  refine ⟨rfl, rfl, rfl, ?_⟩
  decide

/-- C2 amended: when the poll of the feed endpoint fails (transport
error, timeout, non-2xx, or unparseable body), the cycle leaves the seen
set unchanged, attempts no notification, and proceeds without an uncaught
exception — but the last-check timestamp IS advanced to the current time,
because the failure is converted to an empty list inside
`get_latest_boosts` before the timestamp update runs. -/
theorem C2_fetch_failure_frame (oc : Boost → SendOutcome) (e : FetchErr) (now : ℕ)
    (st : MonitorState) :
    monitor_cycle oc (.error e) now st = (⟨st.known_boosts, now⟩, []) := by
  rw [monitor_cycle_eq]
  rfl

/-- C3 counterexample: in a two-event cycle where processing the first
event raises an uncaught exception (e.g. `float()` on a malformed
`priceUsd`), the second, unseen event with a distinct key is NOT
notified: the cycle's notification list is empty, contradicting the claim
that events after a failing event are still notified. -/
theorem C3_counterexample :
    (process_boosts (fun b => if b.chainId = "a" then .raised else .ok)
        [⟨"a", "x", 1, 1, none, none⟩, ⟨"b", "y", 1, 1, none, none⟩] ∅).notified = []
    ∧ (process_boosts (fun b => if b.chainId = "a" then .raised else .ok)
        [⟨"a", "x", 1, 1, none, none⟩, ⟨"b", "y", 1, 1, none, none⟩] ∅).raised = true
    ∧ boostId ⟨"a", "x", 1, 1, none, none⟩ ≠ boostId ⟨"b", "y", 1, 1, none, none⟩ := by
  refine ⟨rfl, rfl, ?_⟩
  decide

/-- C3 amended: per-event isolation holds only for delivery failures
(caught inside `send_notification`): if no event raises an uncaught
exception, every fresh event is notified even when some deliveries fail,
and the cycle does not abort.  An uncaught exception while enriching or
formatting one event, however, aborts the rest of the cycle: no later
event is notified or marked seen in that cycle; the exception is caught
at loop level, so the loop continues and the timestamp is left unchanged
for that cycle. -/
theorem C3_per_event_isolation :
    (∀ (oc : Boost → SendOutcome) (bs : List Boost) (seen : Finset String),
       (∀ b ∈ bs, oc b ≠ .raised) → (∀ b ∈ bs, boostId b ∉ seen) →
       bs.Pairwise (fun a b => boostId a ≠ boostId b) →
       (process_boosts oc bs seen).notified = bs
       ∧ (process_boosts oc bs seen).raised = false)
    ∧ (∀ (oc : Boost → SendOutcome) (b : Boost) (rest : List Boost) (seen : Finset String),
         boostId b ∉ seen → oc b = .raised →
         process_boosts oc (b :: rest) seen = ⟨insert (boostId b) seen, [], true⟩)
    ∧ (∀ (oc : Boost → SendOutcome) (body : PollBody) (now : ℕ) (st : MonitorState),
         (process_boosts oc (normalizeBoosts body) st.known_boosts).raised = true →
         (monitor_cycle oc (.ok body) now st).1.last_check_time = st.last_check_time) := by
  refine ⟨?_, ?_, ?_⟩
  · intro oc bs seen hnr hfresh hpw
    exact ⟨process_boosts_fresh oc bs seen hnr hfresh hpw,
           process_boosts_no_raise oc bs seen hnr⟩
  · intro oc b rest seen h hr
    exact process_boosts_cons_raised oc b rest seen h hr
  · intro oc body now st hr
    rw [monitor_cycle_eq]
    simp only [get_latest_boosts] at hr ⊢
    simp [hr]

/-- C3 witness: two fresh events both fail to deliver (the Telegram send
raises and is caught), yet both are notified and the cycle does not
abort. -/
theorem C3_per_event_isolation_witness :
    (process_boosts (fun _ => .deliveryFailed)
        [⟨"a", "x", 1, 1, none, none⟩, ⟨"b", "y", 1, 1, none, none⟩] ∅).notified
      = [⟨"a", "x", 1, 1, none, none⟩, ⟨"b", "y", 1, 1, none, none⟩]
    ∧ (process_boosts (fun _ => .deliveryFailed)
        [⟨"a", "x", 1, 1, none, none⟩, ⟨"b", "y", 1, 1, none, none⟩] ∅).raised = false :=
  C3_per_event_isolation.1 (fun _ => .deliveryFailed)
    [⟨"a", "x", 1, 1, none, none⟩, ⟨"b", "y", 1, 1, none, none⟩] ∅
    (by intro b _; simp) (by intro b _; simp) (by decide)

/-- C4: the boost poller returns the empty sequence on every modelled
failure (transport error, timeout, non-2xx status, unparseable body), a
single-object body is normalised to a one-element sequence and a list
body to itself, a failed fetch produces no notifications end to end, and
the cycle always runs deduplication on the normalised sequence of the
fetch result. -/
theorem C4_poller_normalizes :
    (∀ e : FetchErr, get_latest_boosts (.error e) = .many [])
    ∧ (∀ b : Boost, normalizeBoosts (.one b) = [b])
    ∧ (∀ l : List Boost, normalizeBoosts (.many l) = l)
    ∧ (∀ (oc : Boost → SendOutcome) (e : FetchErr) (now : ℕ) (st : MonitorState),
         (monitor_cycle oc (.error e) now st).2 = [])
    ∧ (∀ (oc : Boost → SendOutcome) (fetch : Except FetchErr PollBody) (now : ℕ)
         (st : MonitorState),
         (monitor_cycle oc fetch now st).2
           = (process_boosts oc (normalizeBoosts (get_latest_boosts fetch))
                st.known_boosts).notified) := by
  refine ⟨fun e => rfl, fun b => rfl, fun l => rfl, fun oc e now st => rfl,
          fun oc fetch now st => rfl⟩

/-- C9: the identity key joins chainId and tokenAddress with an
underscore and is not injective: the distinct pairs ("a", "b_c") and
("a_b", "c") share the key "a_b_c", so after a boost with the first pair
is seen, a never-before-seen boost with the second pair is treated as
already seen and produces no notification. -/
theorem C9_key_not_injective :
    boostId ⟨"a", "b_c", 1, 2, none, none⟩ = boostId ⟨"a_b", "c", 3, 4, none, none⟩
    ∧ (("a", "b_c") : String × String) ≠ ("a_b", "c")
    ∧ (process_boosts (fun _ => .ok) [⟨"a_b", "c", 3, 4, none, none⟩]
        (process_boosts (fun _ => .ok) [⟨"a", "b_c", 1, 2, none, none⟩] ∅).seen).notified
      = [] := by
  refine ⟨by decide, by decide, ?_⟩
  rfl

/-- C10: an event's identity key is inserted into the seen set before the
notification attempt, so whatever the outcome of that attempt (including
a delivery failure or an uncaught exception), the key is in the seen set
afterwards and no boost with the same key is ever notified in a later
cycle: marking-seen is not rolled back on error. -/
theorem C10_mark_before_notify (oc : Boost → SendOutcome) (seen : Finset String)
    (b : Boost) (rest : List Boost) (hfresh : boostId b ∉ seen) :
    boostId b ∈ (process_boosts oc (b :: rest) seen).seen
    ∧ ∀ (oc2 : Boost → SendOutcome) (bs2 : List Boost) (b2 : Boost),
        boostId b2 = boostId b →
        b2 ∉ (process_boosts oc2 bs2 (process_boosts oc (b :: rest) seen).seen).notified := by
  have hmem : boostId b ∈ (process_boosts oc (b :: rest) seen).seen := by
    by_cases hr : oc b = .raised
    · rw [process_boosts_cons_raised _ _ _ _ hfresh hr]
      exact Finset.mem_insert_self _ _
    · rw [process_boosts_cons_send _ _ _ _ hfresh hr]
      exact process_boosts_seen_mono oc rest _ (Finset.mem_insert_self _ _)
  refine ⟨hmem, ?_⟩
  intro oc2 bs2 b2 hkey hb2
  have := process_boosts_notified_not_mem oc2 bs2 _ b2 hb2
  rw [hkey] at this
  exact this hmem

/-- C10 witness: the notification for the concrete boost raises, yet its
key is in the seen set and re-presenting the same key in a later cycle
notifies nothing. -/
theorem C10_mark_before_notify_witness :
    boostId wBoost ∈ (process_boosts (fun _ => .raised) [wBoost] ∅).seen
    ∧ wBoost ∉ (process_boosts (fun _ => .ok) [wBoost]
        (process_boosts (fun _ => .raised) [wBoost] ∅).seen).notified :=
  ⟨(C10_mark_before_notify (fun _ => .raised) ∅ wBoost [] (by simp)).1,
   (C10_mark_before_notify (fun _ => .raised) ∅ wBoost [] (by simp)).2
     (fun _ => .ok) [wBoost] wBoost rfl⟩

/-! ## Evaluation lemmas for the rational renderer -/

lemma ratFloor_intCast (z : ℤ) : ratFloor (z : ℚ) = z := by
  unfold ratFloor
  simp [Rat.num_intCast, Rat.den_intCast]

lemma roundHalfEven_intCast (z : ℤ) : roundHalfEven (z : ℚ) = z := by
  unfold roundHalfEven
  rw [ratFloor_intCast]
  norm_num

lemma format_number_100 : format_number 100 = "$100.00" := by
  rw [format_number, if_neg (by norm_num), if_neg (by norm_num), if_neg (by norm_num)]
  have h2 : roundHalfEven (100 * (10 : ℚ) ^ 2) = 10000 := by
    rw [show (100 : ℚ) * (10 : ℚ) ^ 2 = ((10000 : ℤ) : ℚ) by norm_num, roundHalfEven_intCast]
  simp only [formatFixed, h2]
  decide

lemma format_number_500 : format_number 500 = "$500.00" := by
  rw [format_number, if_neg (by norm_num), if_neg (by norm_num), if_neg (by norm_num)]
  have h2 : roundHalfEven (500 * (10 : ℚ) ^ 2) = 50000 := by
    rw [show (500 : ℚ) * (10 : ℚ) ^ 2 = ((50000 : ℤ) : ℚ) by norm_num, roundHalfEven_intCast]
  simp only [formatFixed, h2]
  decide

/-- C6: the monetary-value formatter follows the B/M/K/literal threshold
ladder of bot.py lines 124-132, and on the four concrete example inputs
it produces exactly the strings the claim lists. -/
theorem C6_format_number_thresholds :
    format_number 999 = "$999.00"
    ∧ format_number 1500 = "$1.50K"
    ∧ format_number 2500000 = "$2.50M"
    ∧ format_number 3200000000 = "$3.20B"
    ∧ (∀ num : ℚ, format_number num =
        if 1000000000 ≤ num then "$" ++ formatFixed 2 (num / 1000000000) ++ "B"
        else if 1000000 ≤ num then "$" ++ formatFixed 2 (num / 1000000) ++ "M"
        else if 1000 ≤ num then "$" ++ formatFixed 2 (num / 1000) ++ "K"
        else "$" ++ formatFixed 2 num) := by
  refine ⟨?_, ?_, ?_, ?_, fun num => rfl⟩
  · rw [format_number, if_neg (by norm_num), if_neg (by norm_num), if_neg (by norm_num)]
    have h2 : roundHalfEven (999 * (10 : ℚ) ^ 2) = 99900 := by
      rw [show (999 : ℚ) * (10 : ℚ) ^ 2 = ((99900 : ℤ) : ℚ) by norm_num, roundHalfEven_intCast]
    simp only [formatFixed, h2]
    decide
  · rw [format_number, if_neg (by norm_num), if_neg (by norm_num), if_pos (by norm_num)]
    have h2 : roundHalfEven (1500 / 1000 * (10 : ℚ) ^ 2) = 150 := by
      rw [show (1500 : ℚ) / 1000 * (10 : ℚ) ^ 2 = ((150 : ℤ) : ℚ) by norm_num,
        roundHalfEven_intCast]
    simp only [formatFixed, h2]
    decide
  · rw [format_number, if_neg (by norm_num), if_pos (by norm_num)]
    have h2 : roundHalfEven (2500000 / 1000000 * (10 : ℚ) ^ 2) = 250 := by
      rw [show (2500000 : ℚ) / 1000000 * (10 : ℚ) ^ 2 = ((250 : ℤ) : ℚ) by norm_num,
        roundHalfEven_intCast]
    simp only [formatFixed, h2]
    decide
  · rw [format_number, if_pos (by norm_num)]
    have h2 : roundHalfEven (3200000000 / 1000000000 * (10 : ℚ) ^ 2) = 320 := by
      rw [show (3200000000 : ℚ) / 1000000000 * (10 : ℚ) ^ 2 = ((320 : ℤ) : ℚ) by norm_num,
        roundHalfEven_intCast]
    simp only [formatFixed, h2]
    decide

/-- C8: the metrics fetcher returns absent on any error and on a missing
or empty `pairs` array; when at least one pair is present it builds the
metrics from the FIRST pair, with `marketCap`, `fdv`, `liquidity.usd`
defaulting to 0, `priceUsd` defaulting to "0", and `info` defaulting to
the empty object. -/
theorem C8_token_info_first_pair :
    (∀ e : FetchErr, get_token_info (.error e) = none)
    ∧ get_token_info (.ok ⟨none⟩) = none
    ∧ get_token_info (.ok ⟨some []⟩) = none
    ∧ (∀ (p : Pair) (rest : List Pair),
         get_token_info (.ok ⟨some (p :: rest)⟩)
           = some ⟨p.baseToken.name, p.baseToken.symbol, p.marketCap.getD 0, p.fdv.getD 0,
                   p.priceUsd.getD "0", ((p.liquidity.getD ⟨none⟩).usd.getD 0),
                   p.info.getD ⟨none, none⟩⟩) := by
  refine ⟨fun e => rfl, rfl, rfl, ?_⟩
  intro p rest
  cases hl : p.liquidity with
  | none => simp [get_token_info, hl]
  | some l => simp [get_token_info, hl]

/-! ## Substring infrastructure

To reason about which text can occur in a rendered message we decompose
occurrences of a pattern in a concatenation: an occurrence lies in the
left part, lies in the right part, or straddles the boundary. -/

lemma prefix_append_split {α : Type*} {p a b : List α} (h : p <+: a ++ b) :
    p <+: a ∨ (a <+: p ∧ p.drop a.length <+: b) := by
  rcases le_or_lt p.length a.length with hle | hlt
  · exact Or.inl (List.prefix_of_prefix_length_le h (List.prefix_append a b) hle)
  · right
    have ha : a <+: p := List.prefix_of_prefix_length_le (List.prefix_append a b) h hlt.le
    refine ⟨ha, ?_⟩
    obtain ⟨r, hr⟩ := ha
    obtain ⟨t, ht⟩ := h
    have hb : r ++ t = b := by
      have : a ++ (r ++ t) = a ++ b := by
        rw [← List.append_assoc, hr, ht]
      exact List.append_cancel_left this
    have hd : p.drop a.length = r := by
      rw [← hr, List.drop_left]
    rw [hd]
    exact ⟨t, hb⟩

lemma infix_append_split {α : Type*} {p a b : List α} (h : p <:+: a ++ b) :
    p <:+: a ∨ p <:+: b ∨
      ∃ k, 0 < k ∧ k < p.length ∧ p.take k <:+ a ∧ p.drop k <+: b := by
  obtain ⟨s, t, hst⟩ := h
  rcases le_or_lt a.length s.length with hle | hlt
  · right; left
    have h1 : s <+: a ++ b := ⟨p ++ t, by rw [← List.append_assoc, hst]⟩
    have ha : a <+: s := List.prefix_of_prefix_length_le (List.prefix_append a b) h1 hle
    obtain ⟨u, hu⟩ := ha
    refine ⟨u, t, ?_⟩
    have : a ++ (u ++ p ++ t) = a ++ b := by
      rw [← hst, ← hu]
      simp [List.append_assoc]
    exact List.append_cancel_left this
  · rcases le_or_lt (s.length + p.length) a.length with hle2 | hlt2
    · left
      have hsp : s ++ p <+: a ++ b := ⟨t, hst⟩
      have : s ++ p <+: a :=
        List.prefix_of_prefix_length_le hsp (List.prefix_append a b)
          (by simpa using hle2)
      obtain ⟨u, hu⟩ := this
      exact ⟨s, u, by rw [← hu]⟩
    · right; right
      refine ⟨a.length - s.length, by omega, by omega, ?_, ?_⟩
      case _ =>
        have h1 : s ++ p.take (a.length - s.length) <+: a ++ b := by
          obtain ⟨r, hr⟩ := List.take_prefix (a.length - s.length) p
          refine ⟨r ++ t, ?_⟩
          rw [← hst]
          simp only [List.append_assoc]
          congr 1
          rw [← List.append_assoc, hr]
        have hlen : (s ++ p.take (a.length - s.length)).length = a.length := by
          simp only [List.length_append, List.length_take]
          omega
        have h2 : s ++ p.take (a.length - s.length) <+: a :=
          List.prefix_of_prefix_length_le h1 (List.prefix_append a b) (by omega)
        have h3 : s ++ p.take (a.length - s.length) = a :=
          List.IsPrefix.eq_of_length h2 hlen
        exact ⟨s, h3⟩
      case _ =>
        have h1 : s ++ p.take (a.length - s.length) = a := by
          have h1' : s ++ p.take (a.length - s.length) <+: a ++ b := by
            obtain ⟨r, hr⟩ := List.take_prefix (a.length - s.length) p
            refine ⟨r ++ t, ?_⟩
            rw [← hst]
            simp only [List.append_assoc]
            congr 1
            rw [← List.append_assoc, hr]
          have hlen : (s ++ p.take (a.length - s.length)).length = a.length := by
            simp only [List.length_append, List.length_take]
            omega
          exact List.IsPrefix.eq_of_length
            (List.prefix_of_prefix_length_le h1' (List.prefix_append a b) (by omega)) hlen
        refine ⟨t, ?_⟩
        have : (s ++ p.take (a.length - s.length)) ++ (p.drop (a.length - s.length) ++ t)
            = a ++ b := by
          rw [← hst]
          simp only [List.append_assoc]
          congr 1
          rw [← List.append_assoc, List.take_append_drop]
        rw [h1] at this
        exact List.append_cancel_left this

lemma infix_append_elim {α : Type*} {p a b : List α} (h : p <:+: a ++ b)
    (ha : ¬ p <:+: a)
    (hk : ∀ k, 0 < k → k < p.length → p.take k <:+ a → p.drop k <+: b → False) :
    p <:+: b := by
  rcases infix_append_split h with h1 | h1 | ⟨k, hk1, hk2, hk3, hk4⟩
  · exact absurd h1 ha
  · exact h1
  · exact (hk k hk1 hk2 hk3 hk4).elim

lemma prefix_head_eq {α : Type*} {x y : List α} (h : x <+: y) (hx : x ≠ []) :
    y.head? = x.head? := by
  obtain ⟨t, rfl⟩ := h
  cases x with
  | nil => exact absurd rfl hx
  | cons c cs => rfl

/-- Eliminate a pattern occurrence past a concrete left segment: the
pattern neither occurs in the segment nor starts a straddle there. -/
lemma step_const {p c rest : List Char} (h : p <:+: c ++ rest)
    (hc1 : ¬ p <:+: c)
    (hc2 : ∀ k, k < p.length → 0 < k → ¬ (p.take k <:+ c)) : p <:+: rest := by
  refine infix_append_elim h hc1 ?_
  intro k hk0 hkp htake _
  exact hc2 k hkp hk0 htake

/-- Eliminate a pattern occurrence past an unknown field: the pattern
does not occur inside the field, and a straddle would force the first
character after the boundary to be `ch`, which the pattern never
contains at any position. -/
lemma step_field {p f rest : List Char} {ch : Char} (h : p <:+: f ++ rest)
    (hf : ¬ p <:+: f) (hrest : rest.head? = some ch)
    (hch : ∀ k, k < p.length → p[k]? ≠ some ch) : p <:+: rest := by
  refine infix_append_elim h hf ?_
  intro k hk0 hkp _ hdrop
  have hd : p.drop k ≠ [] := by
    intro hnil
    rw [List.drop_eq_nil_iff] at hnil
    omega
  have hh : rest.head? = (p.drop k).head? := prefix_head_eq hdrop hd
  rw [List.head?_drop] at hh
  exact hch k hkp (hh.symm.trans hrest)

/-- The character alphabet of `format_number` output. -/
def numChars : List Char := "0123456789$-.KMB".data

lemma digitChar_mem (d : Nat) : digitChar d ∈ numChars := by
  unfold digitChar
  repeat' split
  all_goals decide

lemma natDigits_mem : ∀ (fuel n : Nat), ∀ c ∈ natDigits fuel n, c ∈ numChars := by
  intro fuel
  induction fuel with
  | zero => intro n c hc; simp [natDigits] at hc
  | succ fuel ih =>
    intro n c hc
    rw [natDigits] at hc
    split at hc
    · rw [List.mem_singleton] at hc
      rw [hc]; exact digitChar_mem n
    · rcases List.mem_append.mp hc with h1 | h1
      · exact ih (n / 10) c h1
      · rw [List.mem_singleton] at h1
        rw [h1]; exact digitChar_mem (n % 10)

lemma strData_append (s t : String) : (s ++ t).data = s.data ++ t.data := rfl

lemma natToStr_mem (n : Nat) : ∀ c ∈ (natToStr n).data, c ∈ numChars :=
  fun c hc => natDigits_mem (n + 1) n c hc

lemma padDigits_mem (w m : Nat) : ∀ c ∈ (padDigits w m).data, c ∈ numChars := by
  intro c hc
  rw [padDigits, strData_append] at hc
  rcases List.mem_append.mp hc with h1 | h1
  · rw [List.eq_of_mem_replicate h1]
    decide
  · exact natToStr_mem m c h1

lemma formatFixed_mem (places : Nat) (q : ℚ) :
    ∀ c ∈ (formatFixed places q).data, c ∈ numChars := by
  intro c hc
  rw [formatFixed] at hc
  simp only [strData_append] at hc
  rcases List.mem_append.mp hc with h1 | h1
  · rcases List.mem_append.mp h1 with h2 | h2
    · rcases List.mem_append.mp h2 with h3 | h3
      · split at h3
        · rw [List.mem_singleton] at h3
          rw [h3]; decide
        · simp at h3
      · exact natToStr_mem _ c h3
    · rw [List.mem_singleton] at h2
      rw [h2]; decide
  · exact padDigits_mem _ _ c h1

lemma dollar_fixed_mem (q : ℚ) (suffix : String)
    (hsuf : ∀ c ∈ suffix.data, c ∈ numChars) :
    ∀ c ∈ ("$" ++ formatFixed 2 q ++ suffix).data, c ∈ numChars := by
  intro c hc
  simp only [strData_append] at hc
  rcases List.mem_append.mp hc with h1 | h1
  · rcases List.mem_append.mp h1 with h2 | h2
    · rw [List.mem_singleton] at h2
      rw [h2]; decide
    · exact formatFixed_mem _ _ c h2
  · exact hsuf c h1

lemma format_number_mem (q : ℚ) : ∀ c ∈ (format_number q).data, c ∈ numChars := by
  intro c hc
  rw [format_number] at hc
  split at hc
  · exact dollar_fixed_mem _ "B"
      (by intro x hx; rw [show ("B" : String).data = ['B'] from rfl, List.mem_singleton] at hx
          rw [hx]; decide) c hc
  · split at hc
    · exact dollar_fixed_mem _ "M"
        (by intro x hx; rw [show ("M" : String).data = ['M'] from rfl, List.mem_singleton] at hx
            rw [hx]; decide) c hc
    · split at hc
      · exact dollar_fixed_mem _ "K"
          (by intro x hx; rw [show ("K" : String).data = ['K'] from rfl, List.mem_singleton] at hx
              rw [hx]; decide) c hc
      · have := dollar_fixed_mem q "" (by intro x hx; simp at hx) c
        apply this
        simp only [strData_append] at hc ⊢
        simpa using hc

lemma not_infix_of_forbidden {p l : List Char} {c : Char} (hc : c ∈ p)
    (hl : ∀ x ∈ l, x ∈ numChars) (hcn : c ∉ numChars) : ¬ p <:+: l :=
  fun h => hcn (hl c (h.subset hc))

set_option maxRecDepth 8000 in
lemma reduced_no_TM (b : Boost)
    (hch : ¬ ("Token Metrics".data <:+: b.chainId.data))
    (had : ¬ ("Token Metrics".data <:+: b.tokenAddress.data)) :
    ¬ ("Token Metrics".data <:+: (specReducedMessage b).data) := by
  intro h
  have hn1 : ¬ ("Token Metrics".data <:+: (format_number b.amount).data) :=
    @not_infix_of_forbidden _ _ 'T' (by decide) (format_number_mem _) (by decide)
  have hn2 : ¬ ("Token Metrics".data <:+: (format_number b.totalAmount).data) :=
    @not_infix_of_forbidden _ _ 'T' (by decide) (format_number_mem _) (by decide)
  rw [specReducedMessage] at h
  simp only [strData_append, List.append_assoc] at h
  have h1 := step_const h (by decide) (by decide)
  have h2 := step_const h1 (by decide) (by decide)
  have h3 := step_field h2 hch rfl (by decide)
  have h4 := step_const h3 (by decide) (by decide)
  have h5 := step_const h4 (by decide) (by decide)
  have h6 := step_field h5 had rfl (by decide)
  have h7 := step_const h6 (by decide) (by decide)
  have h8 := step_const h7 (by decide) (by decide)
  have h9 := step_field h8 hn1 rfl (by decide)
  have h10 := step_const h9 (by decide) (by decide)
  have h11 := step_const h10 (by decide) (by decide)
  have h12 := step_field h11 hn2 rfl (by decide)
  exact absurd h12 (by decide)

set_option maxRecDepth 8000 in
lemma reduced_no_SL (b : Boost)
    (hch : ¬ ("Social Links".data <:+: b.chainId.data))
    (had : ¬ ("Social Links".data <:+: b.tokenAddress.data)) :
    ¬ ("Social Links".data <:+: (specReducedMessage b).data) := by
  intro h
  have hn1 : ¬ ("Social Links".data <:+: (format_number b.amount).data) :=
    @not_infix_of_forbidden _ _ 'S' (by decide) (format_number_mem _) (by decide)
  have hn2 : ¬ ("Social Links".data <:+: (format_number b.totalAmount).data) :=
    @not_infix_of_forbidden _ _ 'S' (by decide) (format_number_mem _) (by decide)
  rw [specReducedMessage] at h
  simp only [strData_append, List.append_assoc] at h
  have h1 := step_const h (by decide) (by decide)
  have h2 := step_const h1 (by decide) (by decide)
  have h3 := step_field h2 hch rfl (by decide)
  have h4 := step_const h3 (by decide) (by decide)
  have h5 := step_const h4 (by decide) (by decide)
  have h6 := step_field h5 had rfl (by decide)
  have h7 := step_const h6 (by decide) (by decide)
  have h8 := step_const h7 (by decide) (by decide)
  have h9 := step_field h8 hn1 rfl (by decide)
  have h10 := step_const h9 (by decide) (by decide)
  have h11 := step_const h10 (by decide) (by decide)
  have h12 := step_field h11 hn2 rfl (by decide)
  exact absurd h12 (by decide)

set_option maxRecDepth 8000 in
/-- C5 counterexample: a well-formed boost event whose token address
contains the section header text makes the reduced message contain
"Token Metrics" even though metrics are absent, so the claim's universal
"never contains" reading is false. -/
theorem C5_counterexample :
    send_notification_message ⟨"solana", "*💰 Token Metrics:*", 100, 500, none, none⟩ none
      = some ("🔥 *NEW TOKEN BOOST DETECTED* 🔥\n\n*Chain:* solana\n*Token Address:* `*💰 Token Metrics:*`\n*Boost Amount:* $100.00\n*Total Amount:* $500.00\n")
    ∧ ("Token Metrics".data
        <:+: ("🔥 *NEW TOKEN BOOST DETECTED* 🔥\n\n*Chain:* solana\n*Token Address:* `*💰 Token Metrics:*`\n*Boost Amount:* $100.00\n*Total Amount:* $500.00\n" : String).data) := by
  constructor
  · simp only [send_notification_message]
    rw [format_number_100, format_number_500]
    rfl
  · decide

/-- C5 amended: for every boost event whose chainId and tokenAddress do
not themselves contain the strings "Token Metrics" or "Social Links",
the message formatted with metrics absent is exactly the reduced form
(chain id, token address, boost amount, total amount) and contains
neither a "Token Metrics" nor a "Social Links" section text. -/
theorem C5_reduced_message (b : Boost)
    (h1 : ¬ ("Token Metrics".data <:+: b.chainId.data))
    (h2 : ¬ ("Token Metrics".data <:+: b.tokenAddress.data))
    (h3 : ¬ ("Social Links".data <:+: b.chainId.data))
    (h4 : ¬ ("Social Links".data <:+: b.tokenAddress.data)) :
    send_notification_message b none = some (specReducedMessage b)
    ∧ ¬ ("Token Metrics".data <:+: (specReducedMessage b).data)
    ∧ ¬ ("Social Links".data <:+: (specReducedMessage b).data) :=
  ⟨rfl, reduced_no_TM b h1 h2, reduced_no_SL b h3 h4⟩

/-- C5 witness: the theorem applied to the spec's own scenario event. -/
theorem C5_reduced_message_witness :
    (¬ ("Token Metrics".data <:+: ("solana" : String).data))
    ∧ (send_notification_message wBoost none = some (specReducedMessage wBoost)
       ∧ ¬ ("Token Metrics".data <:+: (specReducedMessage wBoost).data)
       ∧ ¬ ("Social Links".data <:+: (specReducedMessage wBoost).data)) :=
  ⟨by decide, C5_reduced_message wBoost (by decide) (by decide) (by decide) (by decide)⟩

/-- C7 counterexample: with present-but-empty socials and websites the
rendered placeholder is the literal "No social links available", which
is not the claim's literal "no links available" and does not even
contain it as a substring. -/
theorem C7_counterexample :
    format_social_links ⟨some [], some []⟩ = "No social links available"
    ∧ ¬ ("no links available".data
          <:+: ("No social links available" : String).data) :=
  ⟨rfl, by decide⟩

lemma pyFloat_zero : pyFloat "0" = some 0 := by
  have h : pyFloat "0" = some (digitsVal ['0']) := rfl
  have h2 : ('0'.toNat - 48 : ℕ) = 0 := rfl
  rw [h]
  norm_num [digitsVal, h2]

/-- C7 amended: for every boost event and metrics whose socials and
websites collections are present but empty (and whose price string
parses, so the message is built at all), the social-links block renders
the literal placeholder "No social links available" rather than being
omitted: the message ends with the Social Links header followed by that
placeholder. -/
theorem C7_social_links_placeholder (b : Boost) (ti : TokenInfo) (pq : ℚ)
    (hw : ti.info.websites = some []) (hs : ti.info.socials = some [])
    (hp : pyFloat ti.price_usd = some pq) :
    format_social_links ti.info = "No social links available"
    ∧ ∃ pre : String,
        send_notification_message b (some ti)
          = some (pre ++ ("\n*Social Links:*\n" ++ "No social links available")) := by
  have hx : format_social_links ti.info = "No social links available" := by
    simp [format_social_links, hw, hs]
  refine ⟨hx, ?_⟩
  have htruthy : ti.info.truthy = true := by
    simp [Info.truthy, hw]
  simp only [send_notification_message, hp, htruthy, if_true, hx]
  exact ⟨_, rfl⟩

/-- Concrete token metrics used by the C7 witness. -/
def wTokenInfo : TokenInfo :=
  ⟨"Name", "SYM", 0, 0, "0", 0, ⟨some [], some []⟩⟩

/-- C7 witness: the theorem applied to concrete metrics with empty
socials and websites. -/
theorem C7_social_links_placeholder_witness :
    format_social_links wTokenInfo.info = "No social links available"
    ∧ ∃ pre : String,
        send_notification_message wBoost (some wTokenInfo)
          = some (pre ++ ("\n*Social Links:*\n" ++ "No social links available")) :=
  C7_social_links_placeholder wBoost wTokenInfo 0 rfl rfl pyFloat_zero

end DexBot
